import Mathlib

/-!
Verification of the mdng TIFF/DNG relayout engine (`src/mdng/__init__.py`).

The development shallowly embeds the Python source: byte strings become
`List Nat` (each element one byte value), Python tuples of ints become
`List Int`, fallible operations (struct packing and unpacking, dictionary
lookups, file parsing — anything that raises) return `Option` or `Except`,
and the two stateful classes (`ImageFileDirectory`, `M9DNG`) become records
threaded through explicit state-passing functions.  Machine integers are
plain `Nat`/`Int` with explicit range guards mirroring `struct`'s checks.

Python floats appear only as payloads of field types 11 and 12; they are
modelled by their IEEE-754 bit patterns (a 32- or 64-bit `Nat`), which is
exact for every value representable at the field width.
-/

namespace Mdng

/-- Python byte-string slice `c[o : o + n]`. -/
def slice (c : List Nat) (o n : Nat) : List Nat := (c.drop o).take n

/-- Byte order selected from the file signature: `II` is little-endian,
`MM` is big-endian. -/
inductive Endian where
  | little : Endian
  | big : Endian
deriving DecidableEq, Repr

/-- Value of two bytes `a, b` (in stream order) read little-endian. -/
def le16 (a b : Nat) : Nat := a + 256 * b

/-- Value of two bytes `a, b` (in stream order) read big-endian. -/
def be16 (a b : Nat) : Nat := 256 * a + b

/-- Value of four stream-order bytes read little-endian. -/
def le32 (a b c d : Nat) : Nat := a + 256 * b + 65536 * c + 16777216 * d

/-- Value of four stream-order bytes read big-endian. -/
def be32 (a b c d : Nat) : Nat := 16777216 * a + 65536 * b + 256 * c + d

/-- Value of eight stream-order bytes read little-endian. -/
def le64 (a b c d e f g h : Nat) : Nat :=
  a + 256 * b + 65536 * c + 16777216 * d + 4294967296 * e +
    1099511627776 * f + 281474976710656 * g + 72057594037927936 * h

/-- Value of eight stream-order bytes read big-endian. -/
def be64 (a b c d e f g h : Nat) : Nat :=
  72057594037927936 * a + 281474976710656 * b + 1099511627776 * c +
    4294967296 * d + 16777216 * e + 65536 * f + 256 * g + h

/-- 16-bit word combiner for the given byte order. -/
def w16 : Endian → Nat → Nat → Nat
  | .little => le16
  | .big => be16

/-- 32-bit word combiner for the given byte order. -/
def w32 : Endian → Nat → Nat → Nat → Nat → Nat
  | .little => le32
  | .big => be32

/-- 64-bit word combiner for the given byte order. -/
def w64 : Endian → Nat → Nat → Nat → Nat → Nat → Nat → Nat → Nat → Nat
  | .little => le64
  | .big => be64

/-- The two bytes of a 16-bit value, in stream order (`struct.pack` of
format `H`; the caller guarantees the range). -/
def b16 : Endian → Nat → List Nat
  | .little, x => [x % 256, x / 256]
  | .big, x => [x / 256, x % 256]

/-- The four bytes of a 32-bit value, in stream order. -/
def b32 : Endian → Nat → List Nat
  | .little, x => [x % 256, x / 256 % 256, x / 65536 % 256, x / 16777216]
  | .big, x => [x / 16777216, x / 65536 % 256, x / 256 % 256, x % 256]

/-- The eight bytes of a 64-bit value, in stream order. -/
def b64 : Endian → Nat → List Nat
  | .little, x =>
      [x % 256, x / 256 % 256, x / 65536 % 256, x / 16777216 % 256,
       x / 4294967296 % 256, x / 1099511627776 % 256,
       x / 281474976710656 % 256, x / 72057594037927936]
  | .big, x =>
      [x / 72057594037927936, x / 281474976710656 % 256,
       x / 1099511627776 % 256, x / 4294967296 % 256,
       x / 16777216 % 256, x / 65536 % 256, x / 256 % 256, x % 256]

/-- Source `ol16 = lambda i: struct.pack("<H", int(i))`: fails (struct.error)
outside the unsigned 16-bit range. -/
def ol16 (i : Nat) : Option (List Nat) :=
  if i < 65536 then some (b16 .little i) else none

/-- Source `ol32`: little-endian `struct.pack("<L", i)`. -/
def ol32 (i : Nat) : Option (List Nat) :=
  if i < 4294967296 then some (b32 .little i) else none

/-- Source `ob16`: big-endian `struct.pack(">H", i)`. -/
def ob16 (i : Nat) : Option (List Nat) :=
  if i < 65536 then some (b16 .big i) else none

/-- Source `ob32`: big-endian `struct.pack(">L", i)`. -/
def ob32 (i : Nat) : Option (List Nat) :=
  if i < 4294967296 then some (b32 .big i) else none

/-- `self.o16` of a directory: pack a 16-bit value in its byte order. -/
def o16pack : Endian → Nat → Option (List Nat)
  | .little => ol16
  | .big => ob16

/-- `self.o32` of a directory: pack a 32-bit value in its byte order. -/
def o32pack : Endian → Nat → Option (List Nat)
  | .little => ol32
  | .big => ob32

/-- Source `il16 = lambda c, o=0: struct.unpack("<H", c[o:o+2])[0]`:
the slice must hold exactly two bytes or `struct.unpack` raises. -/
def il16 (c : List Nat) (o : Nat) : Option Nat :=
  match slice c o 2 with
  | [a, b] => some (le16 a b)
  | _ => none

/-- Source `il32`: unpack `"<L"` from the four bytes `c[o:o+4]`. -/
def il32 (c : List Nat) (o : Nat) : Option Nat :=
  match slice c o 4 with
  | [a, b, x, d] => some (le32 a b x d)
  | _ => none

/-- Source `ib16`: unpack `">H"` from the two bytes `c[o:o+2]`. -/
def ib16 (c : List Nat) (o : Nat) : Option Nat :=
  match slice c o 2 with
  | [a, b] => some (be16 a b)
  | _ => none

/-- Source `ib32 = lambda c, o=0: struct.unpack(">L", c[o:o+2])[0]`:
the slice takes only TWO bytes yet the format `">L"` demands exactly four,
so the unpack can never be given a correctly sized argument. -/
def ib32 (c : List Nat) (o : Nat) : Option Nat :=
  match slice c o 2 with
  | [a, b, x, d] => some (be32 a b x d)
  | _ => none

/-- `self.i16` of a directory. -/
def i16un : Endian → List Nat → Nat → Option Nat
  | .little => il16
  | .big => ib16

/-- `self.i32` of a directory (the big-endian branch is the broken `ib32`). -/
def i32un : Endian → List Nat → Nat → Option Nat
  | .little => il32
  | .big => ib32

/-- A decoded Python tag value: a tuple of ints, a tuple of
(numerator, denominator) pairs, a raw byte string, or a tuple of floats
(kept as IEEE-754 bit patterns of the field width). -/
inductive PyVal where
  | ints : List Int → PyVal
  | pairs : List (Int × Int) → PyVal
  | str : List Nat → PyVal
  | flts : List Nat → PyVal
  | dbls : List Nat → PyVal
deriving DecidableEq, Repr

/-- Group a byte list into 16-bit words (`struct.unpack` of `"%dH"` with
count `len / 2`: an odd leftover byte makes the format size mismatch and
the unpack raise). -/
def words2 (f : Nat → Nat → Nat) : List Nat → Option (List Nat)
  | [] => some []
  | a :: b :: rest => (words2 f rest).map fun l => f a b :: l
  | _ => none

/-- Group a byte list into 32-bit words; a 1-3 byte leftover raises. -/
def words4 (f : Nat → Nat → Nat → Nat → Nat) : List Nat → Option (List Nat)
  | [] => some []
  | a :: b :: c :: d :: rest => (words4 f rest).map fun l => f a b c d :: l
  | _ => none

/-- Group a byte list into 64-bit words; a 1-7 byte leftover raises. -/
def words8 (f : Nat → Nat → Nat → Nat → Nat → Nat → Nat → Nat → Nat) :
    List Nat → Option (List Nat)
  | [] => some []
  | a :: b :: c :: d :: e :: f1 :: g :: h :: rest =>
      (words8 f rest).map fun l => f a b c d e f1 g h :: l
  | _ => none

/-- Two's-complement interpretation of an unsigned value below `2 * half`. -/
def toSigned (half : Nat) (n : Nat) : Int :=
  if n < half then (n : Int) else (n : Int) - 2 * (half : Int)

/-- Two's-complement representation `(x mod 2^w)` of a signed value, as the
unsigned `Nat` that `struct.pack` of a signed format emits. -/
def toU (m : Nat) (x : Int) : Nat := (x % (m : Int)).toNat

/-- Source `ImageFileDirectory.unknown`: `raise RuntimeError(...)` — the
entry for the two rational types in the store dispatch table. -/
def unknown (_v : PyVal) : Option (List Nat) := none

/-- Source `load_unsigned_byte`: `struct.unpack("%dB" % len(data), data)`. -/
def load_unsigned_byte (data : List Nat) : Option PyVal :=
  some (.ints (data.map Int.ofNat))

/-- Source `load_string`: returns the raw bytes unchanged. -/
def load_string (data : List Nat) : Option PyVal := some (.str data)

/-- Source `load_unsigned_short`: unpack `len / 2` 16-bit words. -/
def load_unsigned_short (e : Endian) (data : List Nat) : Option PyVal :=
  (words2 (w16 e) data).map fun l => .ints (l.map Int.ofNat)

/-- Source `load_unsigned_long`: unpack `len / 4` 32-bit words. -/
def load_unsigned_long (e : Endian) (data : List Nat) : Option PyVal :=
  (words4 (w32 e) data).map fun l => .ints (l.map Int.ofNat)

/-- Sliding-window pairing of adjacent elements — the translation of
`zip(l[:-1], l[1:])` used by both rational decoders. -/
def adjPairs : List Int → List (Int × Int)
  | a :: b :: rest => (a, b) :: adjPairs (b :: rest)
  | _ => []

/-- Source `load_unsigned_rational`: unpack `len / 4` 32-bit words, then
pair them with `zip(l[:-1], l[1:])`. -/
def load_unsigned_rational (e : Endian) (data : List Nat) : Option PyVal :=
  (words4 (w32 e) data).map fun l => .pairs (adjPairs (l.map Int.ofNat))

/-- Source `load_signed_byte`. -/
def load_signed_byte (data : List Nat) : Option PyVal :=
  some (.ints (data.map (toSigned 128)))

/-- Source `load_undefined`: raw bytes unchanged. -/
def load_undefined (data : List Nat) : Option PyVal := some (.str data)

/-- Source `load_signed_short`. -/
def load_signed_short (e : Endian) (data : List Nat) : Option PyVal :=
  (words2 (w16 e) data).map fun l => .ints (l.map (toSigned 32768))

/-- Source `load_signed_long`. -/
def load_signed_long (e : Endian) (data : List Nat) : Option PyVal :=
  (words4 (w32 e) data).map fun l => .ints (l.map (toSigned 2147483648))

/-- Source `load_signed_rational`: words then `zip(l[:-1], l[1:])`. -/
def load_signed_rational (e : Endian) (data : List Nat) : Option PyVal :=
  (words4 (w32 e) data).map fun l => .pairs (adjPairs (l.map (toSigned 2147483648)))

/-- Source `load_float`: 32-bit values, kept as IEEE bit patterns. -/
def load_float (e : Endian) (data : List Nat) : Option PyVal :=
  (words4 (w32 e) data).map fun l => .flts l

/-- Source `load_double`: 64-bit values, kept as IEEE bit patterns. -/
def load_double (e : Endian) (data : List Nat) : Option PyVal :=
  (words8 (w64 e) data).map fun l => .dbls l

/-- Source `load_ifds`: its body calls `load_unsigned_long(self, data)`
through a free (unbound) name, so invoking it raises `NameError`. -/
def load_ifds (_e : Endian) (_data : List Nat) : Option PyVal := none

/-- Per-element byte width of each field type — the first component of
`load_dispatch`; `none` for a type absent from the table. -/
def typeWidth : Nat → Option Nat
  | 1 => some 1
  | 2 => some 1
  | 3 => some 2
  | 4 => some 4
  | 5 => some 8
  | 6 => some 1
  | 7 => some 1
  | 8 => some 2
  | 9 => some 4
  | 10 => some 8
  | 11 => some 4
  | 12 => some 8
  | 13 => some 4
  | _ => none

/-- The decoder half of `load_dispatch`, keyed by field type; a missing key
(`KeyError`) is `none`. -/
def loadType (e : Endian) (typ : Nat) (data : List Nat) : Option PyVal :=
  match typ with
  | 1 => load_unsigned_byte data
  | 2 => load_string data
  | 3 => load_unsigned_short e data
  | 4 => load_unsigned_long e data
  | 5 => load_unsigned_rational e data
  | 6 => load_signed_byte data
  | 7 => load_undefined data
  | 8 => load_signed_short e data
  | 9 => load_signed_long e data
  | 10 => load_signed_rational e data
  | 11 => load_float e data
  | 12 => load_double e data
  | 13 => load_ifds e data
  | _ => none

/-- Source `store_unsigned_byte`: `struct.pack("%dB", *values)`; raises for
a non-tuple value or an element outside `0..255`. -/
def store_unsigned_byte (v : PyVal) : Option (List Nat) :=
  match v with
  | .ints vs =>
      if vs.all fun x => decide (0 ≤ x ∧ x < 256) then
        some (vs.map Int.toNat)
      else none
  | _ => none

/-- Source `store_string`: returns the value unchanged.  (For a non-string
value Python would pass the object through; only byte strings are
representable as an encoding result here, and only they have valid shape.) -/
def store_string (v : PyVal) : Option (List Nat) :=
  match v with
  | .str s => some s
  | _ => none

/-- Source `store_unsigned_short`: concatenated 16-bit encodings, each
element range-checked by `struct.pack`. -/
def store_unsigned_short (e : Endian) (v : PyVal) : Option (List Nat) :=
  match v with
  | .ints vs =>
      if vs.all fun x => decide (0 ≤ x ∧ x < 65536) then
        some ((vs.map Int.toNat).flatMap (b16 e))
      else none
  | _ => none

/-- Source `store_unsigned_long`. -/
def store_unsigned_long (e : Endian) (v : PyVal) : Option (List Nat) :=
  match v with
  | .ints vs =>
      if vs.all fun x => decide (0 ≤ x ∧ x < 4294967296) then
        some ((vs.map Int.toNat).flatMap (b32 e))
      else none
  | _ => none

/-- Source `store_signed_byte`. -/
def store_signed_byte (v : PyVal) : Option (List Nat) :=
  match v with
  | .ints vs =>
      if vs.all fun x => decide (-128 ≤ x ∧ x < 128) then
        some (vs.map (toU 256))
      else none
  | _ => none

/-- Source `store_undefined`: the value unchanged (see `store_string`). -/
def store_undefined (v : PyVal) : Option (List Nat) :=
  match v with
  | .str s => some s
  | _ => none

/-- Source `store_signed_short`. -/
def store_signed_short (e : Endian) (v : PyVal) : Option (List Nat) :=
  match v with
  | .ints vs =>
      if vs.all fun x => decide (-32768 ≤ x ∧ x < 32768) then
        some ((vs.map (toU 65536)).flatMap (b16 e))
      else none
  | _ => none

/-- Source `store_signed_long`. -/
def store_signed_long (e : Endian) (v : PyVal) : Option (List Nat) :=
  match v with
  | .ints vs =>
      if vs.all fun x => decide (-2147483648 ≤ x ∧ x < 2147483648) then
        some ((vs.map (toU 4294967296)).flatMap (b32 e))
      else none
  | _ => none

/-- Source `store_float`: four bytes per value (bit-pattern model). -/
def store_float (e : Endian) (v : PyVal) : Option (List Nat) :=
  match v with
  | .flts ps =>
      if ps.all fun x => decide (x < 4294967296) then
        some (ps.flatMap (b32 e))
      else none
  | _ => none

/-- Source `store_double`: eight bytes per value (bit-pattern model). -/
def store_double (e : Endian) (v : PyVal) : Option (List Nat) :=
  match v with
  | .dbls ps =>
      if ps.all fun x => decide (x < 18446744073709551616) then
        some (ps.flatMap (b64 e))
      else none
  | _ => none

/-- Source `store_ifds`: calls `store_unsigned_long(self, values)` through a
free (unbound) name, so invoking it raises `NameError`. -/
def store_ifds (_e : Endian) (_v : PyVal) : Option (List Nat) := none

/-- The `store_dispatch` table, keyed by field type: types 5 and 10 map to
`unknown` (always raises), a missing key is `KeyError`. -/
def storeType (e : Endian) (typ : Nat) (v : PyVal) : Option (List Nat) :=
  match typ with
  | 1 => store_unsigned_byte v
  | 2 => store_string v
  | 3 => store_unsigned_short e v
  | 4 => store_unsigned_long e v
  | 5 => unknown v
  | 6 => store_signed_byte v
  | 7 => store_undefined v
  | 8 => store_signed_short e v
  | 9 => store_signed_long e v
  | 10 => unknown v
  | 11 => store_float e v
  | 12 => store_double e v
  | 13 => store_ifds e v
  | _ => none

/-- An `ImageFileDirectory` after `reset`/`load`: byte order fixed at
construction from the two signature bytes, raw payloads in `tagdata`,
field types in `tagtype`, and the chain pointer `next` (set by `load`). -/
structure IFD where
  endian : Endian
  tagdata : List (Nat × List Nat)
  tagtype : List (Nat × Nat)
  next : Option Nat
deriving DecidableEq, Repr

/-- Python dict lookup on an association list with unique keys. -/
def dget {α : Type} : List (Nat × α) → Nat → Option α
  | [], _ => none
  | (k, v) :: rest, k0 => if k = k0 then some v else dget rest k0

/-- Python dict assignment: replace an existing key or append a new one. -/
def dput {α : Type} : List (Nat × α) → Nat → α → List (Nat × α)
  | [], k, v => [(k, v)]
  | (k0, v0) :: rest, k, v =>
      if k0 = k then (k, v) :: rest else (k0, v0) :: dput rest k v

/-- `ImageFileDirectory.__getitem__`: decode the raw payload on access with
the decoder selected by the stored type; a missing tag or type, or a failing
decoder, raises. -/
def getitem (d : IFD) (tag : Nat) : Option PyVal :=
  match dget d.tagtype tag with
  | none => none
  | some typ =>
    match dget d.tagdata tag with
    | none => none
    | some data => loadType d.endian typ data

/-- `ImageFileDirectory.__setitem__`: the value must already be a tuple or a
byte string (every `PyVal` is); the tag must have a known type
(`KeyError` otherwise); then the store dispatch encodes the value, and only
if encoding returns does `tagdata` get the new payload — a raising encoder
leaves the directory untouched. -/
def setitem (d : IFD) (tag : Nat) (v : PyVal) : Except String IFD :=
  match dget d.tagtype tag with
  | none => .error "KeyError: Tag type has not been set"
  | some typ =>
      match storeType d.endian typ v with
      | none => .error "store dispatch raised"
      | some bs => .ok { d with tagdata := dput d.tagdata tag bs }

/-- A seekable byte stream: the full underlying byte string plus the current
position (`read`/`seek`/`tell` of a Python file object). -/
structure FileStream where
  data : List Nat
  pos : Nat
deriving DecidableEq, Repr

/-- `fp.read(n)`: up to `n` bytes from the current position (fewer at end of
file, with no error); the position advances by the number of bytes read. -/
def fsRead (s : FileStream) (n : Nat) : List Nat × FileStream :=
  let bs := slice s.data s.pos n
  (bs, { s with pos := s.pos + bs.length })

/-- `fp.seek(o)`. -/
def fsSeek (s : FileStream) (o : Nat) : FileStream := { s with pos := o }

/-- The entry loop of `ImageFileDirectory.load`, `n` iterations of: read a
12-byte record `(tag:u16, typ:u16, count:u32, data:4s)`; skip types missing
from the dispatch table; for `size > 4` seek to the 32-bit offset held in
the 4-byte field, read the payload and restore the position, for `size < 4`
truncate the inline field; store payload and type.  The trailing
`log.debug(... repr(self[tag]))` call evaluates the decoder eagerly whenever
`size <= 64`, so a decoder failure there aborts the whole load. -/
def ifdLoadLoop (e : Endian) :
    Nat → List (Nat × List Nat) → List (Nat × Nat) → FileStream →
    Option ((List (Nat × List Nat) × List (Nat × Nat)) × FileStream)
  | 0, td, tt, fp => some ((td, tt), fp)
  | n + 1, td, tt, fp =>
    let r := fsRead fp 12
    match r.1 with
    | [t0, t1, y0, y1, c0, c1, c2, c3, d0, d1, d2, d3] =>
      let fp := r.2
      let tag := w16 e t0 t1
      let typ := w16 e y0 y1
      let cnt := w32 e c0 c1 c2 c3
      match typeWidth typ with
      | none => ifdLoadLoop e n td tt fp
      | some w =>
        let size := w * cnt
        let fetched : List Nat × FileStream :=
          if 4 < size then
            let here := fp.pos
            let fp1 := fsSeek fp (w32 e d0 d1 d2 d3)
            let r2 := fsRead fp1 size
            (r2.1, fsSeek r2.2 here)
          else if size < 4 then ([d0, d1, d2, d3].take size, fp)
          else ([d0, d1, d2, d3], fp)
        let td := dput td tag fetched.1
        let tt := dput tt tag typ
        if size ≤ 64 then
          match loadType e typ fetched.1 with
          | none => none
          | some _ => ifdLoadLoop e n td tt fetched.2
        else ifdLoadLoop e n td tt fetched.2
    | _ => none

/-- `ImageFileDirectory.load`: read the 16-bit entry count, run the entry
loop, apply the vendor quirk — whenever tag 700 (XMP) is present its stored
type is set to 1, with no test of the type it was read with — and read the
4-byte next-directory pointer with `self.i32` (for a big-endian directory
that is the broken `ib32`, so the load raises). -/
def ifdLoad (e : Endian) (fp : FileStream) : Option (IFD × FileStream) :=
  let r := fsRead fp 2
  match i16un e r.1 0 with
  | none => none
  | some n =>
    match ifdLoadLoop e n [] [] r.2 with
    | none => none
    | some (st, fp2) =>
      let tt := if (dget st.2 700).isSome then dput st.2 700 1 else st.2
      let r4 := fsRead fp2 4
      match i32un e r4.1 0 with
      | none => none
      | some nxt =>
          some ({ endian := e, tagdata := st.1, tagtype := tt,
                  next := some nxt }, r4.2)

/-- One record of `save`'s in-memory `directory` list:
`(tag, typ, count, value-or-offset bytes, external payload)`. -/
structure DirEntry where
  tag : Nat
  typ : Nat
  count : Nat
  value : List Nat
  data : List Nat
deriving DecidableEq, Repr

/-- Pass 1 of `ImageFileDirectory.save` over the sorted tag list, carrying
the running external-data cursor `offset`: a 4-byte payload is inline, a
shorter one is zero-padded to 4 bytes inline, a longer one records
`o32(offset)` and advances the cursor by its size, then rounds the cursor
up to even (`if offset & 1: offset = offset + 1`).  The debug log evaluates
`repr(self[tag])` unless `size > 64 and typ in (1, 2, 7)`. -/
def save_pass1 (e : Endian) (td : List (Nat × List Nat))
    (tt : List (Nat × Nat)) :
    List Nat → Nat → Option (List DirEntry × Nat)
  | [], offset => some ([], offset)
  | tag :: rest, offset =>
    match dget tt tag with
    | none => none
    | some typ =>
      match dget td tag with
      | none => none
      | some data =>
        match typeWidth typ with
        | none => none
        | some w =>
          match (if 64 < data.length ∧ (typ = 1 ∨ typ = 2 ∨ typ = 7)
                 then some ()
                 else (loadType e typ data).map fun _ => ()) with
          | none => none
          | some _ =>
            if data.length = 4 then
              (save_pass1 e td tt rest offset).map fun p =>
                (⟨tag, typ, data.length / w, data, []⟩ :: p.1, p.2)
            else if data.length < 4 then
              (save_pass1 e td tt rest offset).map fun p =>
                (⟨tag, typ, data.length / w,
                  data ++ List.replicate (4 - data.length) 0, []⟩ ::
                   p.1, p.2)
            else
              match o32pack e offset with
              | none => none
              | some v =>
                (save_pass1 e td tt rest
                    (if (offset + data.length) % 2 = 1
                     then offset + data.length + 1
                     else offset + data.length)).map fun p =>
                  (⟨tag, typ, data.length / w, v, data⟩ :: p.1, p.2)

/-- Pass 2: the fixed 12-byte record of one entry. -/
def entryBytes (e : Endian) (en : DirEntry) : Option (List Nat) :=
  match o16pack e en.tag with
  | none => none
  | some t =>
    match o16pack e en.typ with
    | none => none
    | some ty =>
      match o32pack e en.count with
      | none => none
      | some c => some (t ++ ty ++ c ++ en.value)

/-- Sequence a fallible map over a list (used for pass 2). -/
def seqMap {α β : Type} (f : α → Option β) : List α → Option (List β)
  | [] => some []
  | a :: rest =>
    match f a, seqMap f rest with
    | some b, some l => some (b :: l)
    | _, _ => none

/-- Pass 3: the external payloads in the same order, each followed by one
zero byte when its length is odd. -/
def auxBytes (entries : List DirEntry) : List Nat :=
  entries.flatMap fun en =>
    en.data ++ (if en.data.length % 2 = 1 then [0] else [])

/-- `ImageFileDirectory.save`, started at absolute position `start`: write
the 16-bit tag count, initialize the cursor to
`fp.tell() + len(tags) * 12 + 4` (i.e. `start + 2 + 12 n + 4`), run pass 1,
then emit entry records, the constant 4-byte zero terminator, and the
external payloads.  The returned number is the source's `offset` variable,
the function's return value. -/
def ifdSave (d : IFD) (start : Nat) : Option (List Nat × Nat) :=
  match o16pack d.endian
      (List.insertionSort (· ≤ ·) (d.tagdata.map Prod.fst)).length with
  | none => none
  | some cb =>
    match save_pass1 d.endian d.tagdata d.tagtype
        (List.insertionSort (· ≤ ·) (d.tagdata.map Prod.fst))
        (start + 2 +
          (List.insertionSort (· ≤ ·) (d.tagdata.map Prod.fst)).length * 12
          + 4) with
    | none => none
    | some (entries, endOff) =>
      match seqMap (entryBytes d.endian) entries with
      | none => none
      | some dirBs =>
          some (cb ++ dirBs.flatten ++ [0, 0, 0, 0] ++ auxBytes entries,
                endOff)

/-- The accepted 4-byte header signatures, source constant `PREFIXES`:
`b"MM\000\052"`, `b"II\052\000"`, and `b"II\xBC\000"`. -/
def TIFF_SIGS : List (List Nat) := [[77, 77, 0, 42], [73, 73, 42, 0], [73, 73, 188, 0]]

/-- The `M9DNG.__init__` header test: `ifh[:4] not in PREFIXES` raises. -/
def headerOk (ifh : List Nat) : Bool := decide (slice ifh 0 4 ∈ TIFF_SIGS)

/-- A constructed `M9DNG`: three directories plus the two
`(offset, length)` strip descriptors read from tags 273/279.  The strip
components are modelled as the integers the tags decode to; a directory
whose strip tag decodes to something other than a tuple of ints falls
outside the model. -/
structure M9DNG where
  endian : Endian
  preview_ifd : IFD
  main_ifd : IFD
  exif_ifd : IFD
  preview_strip : Int × Int
  main_strip : Int × Int
deriving DecidableEq, Repr

/-- `value[0]` of a decoded tag used directly as a number (strip offsets and
byte counts): the first element of the tuple of ints. -/
def firstInt (v : PyVal) : Option Int :=
  match v with
  | .ints (x :: _) => some x
  | _ => none

/-- `value[0]` of a decoded tag used as a `seek` target (tags 330 and
34665): the first element must be a nonnegative int or the seek raises. -/
def seekFirst (v : PyVal) : Option Nat :=
  match v with
  | .ints (x :: _) => if 0 ≤ x then some x.toNat else none
  | _ => none

/-- `self.d[tag][0]` as a number. -/
def getFirst (d : IFD) (tag : Nat) : Option Int :=
  (getitem d tag).bind firstInt

/-- `self.d[tag][0]` as a seek target. -/
def getSeek (d : IFD) (tag : Nat) : Option Nat :=
  (getitem d tag).bind seekFirst

/-- The `if self.prefix == MM ... elif self.prefix == II ...` chain that
fixes the byte order from the first two header bytes. -/
def pickEndian (sig2 : List Nat) : Option Endian :=
  match sig2 with
  | [77, 77] => some Endian.big
  | [73, 73] => some Endian.little
  | _ => none

/-- `M9DNG.__init__` over the source byte string: read the 8-byte header and
test its first four bytes against the signature list; pick the byte order
from the first two bytes; seek to the IFD0 offset in header bytes 4-8 (via
`self.i32`, the broken `ib32` when big-endian); load the preview directory
(IFD0), follow its SubIFDs tag (330) to the main directory and its ExifIFD
tag (34665) to the EXIF directory; finally take element `[0]` of
StripOffsets (273) and StripByteCounts (279) of the preview and main
directories — with no check of how many elements those tags hold. -/
def m9Init (file : List Nat) : Option M9DNG :=
  let fp : FileStream := ⟨file, 0⟩
  let r8 := fsRead fp 8
  if headerOk r8.1 then
    match pickEndian (slice r8.1 0 2) with
    | none => none
    | some e =>
      match i32un e r8.1 4 with
      | none => none
      | some ifd0off =>
        match ifdLoad e (fsSeek r8.2 ifd0off) with
        | none => none
        | some (pifd, fp1) =>
          match getSeek pifd 330 with
          | none => none
          | some mainOff =>
            match ifdLoad e (fsSeek fp1 mainOff) with
            | none => none
            | some (mifd, fp2) =>
              match getSeek pifd 34665 with
              | none => none
              | some exifOff =>
                match ifdLoad e (fsSeek fp2 exifOff) with
                | none => none
                | some (xifd, _) =>
                  match getFirst pifd 273 with
                  | none => none
                  | some po =>
                    match getFirst pifd 279 with
                    | none => none
                    | some pc =>
                      match getFirst mifd 273 with
                      | none => none
                      | some mo =>
                        match getFirst mifd 279 with
                        | none => none
                        | some mc =>
                            some ⟨e, pifd, mifd, xifd, (po, pc), (mo, mc)⟩
  else none

/-- The destination offsets computed at the top of `M9DNG.save`
(lines 428-433): preview strip at 8, main strip right after it, EXIF
directory after the main strip, bumped by one when odd. -/
def m9DestOffsets (previewLen mainLen : Nat) : Nat × Nat × Nat :=
  let destPrev := 8
  let destMain := destPrev + previewLen
  let destExif := destMain + mainLen
  let destExif := if destExif % 2 = 1 then destExif + 1 else destExif
  (destPrev, destMain, destExif)

/-! ### Specification-side definitions

The next definitions transcribe sentences of the specification (not the
source); each theorem comparing them with the embedding above says so. -/

/-- Valid shape of a value for a field type, following the spec's data
model: tuples of ints within the type's range, (numerator, denominator)
pairs for the rational types, byte strings for ASCII/undefined, and floats
(bit patterns of the field width) for types 11/12. -/
def validShape (typ : Nat) (v : PyVal) : Bool :=
  match v with
  | .ints vs =>
      if typ = 1 then vs.all fun x => decide (0 ≤ x ∧ x < 256)
      else if typ = 3 then vs.all fun x => decide (0 ≤ x ∧ x < 65536)
      else if typ = 4 then vs.all fun x => decide (0 ≤ x ∧ x < 4294967296)
      else if typ = 6 then vs.all fun x => decide (-128 ≤ x ∧ x < 128)
      else if typ = 8 then vs.all fun x => decide (-32768 ≤ x ∧ x < 32768)
      else if typ = 9 then vs.all fun x =>
        decide (-2147483648 ≤ x ∧ x < 2147483648)
      else if typ = 13 then vs.all fun x =>
        decide (0 ≤ x ∧ x < 4294967296)
      else false
  | .pairs ps =>
      if typ = 5 then ps.all fun p =>
        decide (0 ≤ p.1 ∧ p.1 < 4294967296 ∧ 0 ≤ p.2 ∧ p.2 < 4294967296)
      else if typ = 10 then ps.all fun p =>
        decide (-2147483648 ≤ p.1 ∧ p.1 < 2147483648 ∧
                -2147483648 ≤ p.2 ∧ p.2 < 2147483648)
      else false
  | .str _ => decide (typ = 2 ∨ typ = 7)
  | .flts ps =>
      if typ = 11 then ps.all fun x => decide (x < 4294967296) else false
  | .dbls ps =>
      if typ = 12 then ps.all fun x => decide (x < 18446744073709551616)
      else false

/-- The round-trip property of the claim: encoding through the store
dispatch succeeds and decoding the produced bytes gives the value back. -/
def roundTrips (e : Endian) (typ : Nat) (v : PyVal) : Prop :=
  ∃ bs, storeType e typ v = some bs ∧ loadType e typ bs = some v

/-- Pass 1 as the specification words it: the external-data cursor advances
by each payload's length rounded up to an even byte boundary (instead of
the source's rounding of the absolute cursor).  Identical to `save_pass1`
in every other respect. -/
def spec_pass1 (e : Endian) (td : List (Nat × List Nat))
    (tt : List (Nat × Nat)) :
    List Nat → Nat → Option (List DirEntry × Nat)
  | [], offset => some ([], offset)
  | tag :: rest, offset =>
    match dget tt tag with
    | none => none
    | some typ =>
      match dget td tag with
      | none => none
      | some data =>
        match typeWidth typ with
        | none => none
        | some w =>
          match (if 64 < data.length ∧ (typ = 1 ∨ typ = 2 ∨ typ = 7)
                 then some ()
                 else (loadType e typ data).map fun _ => ()) with
          | none => none
          | some _ =>
            if data.length = 4 then
              (spec_pass1 e td tt rest offset).map fun p =>
                (⟨tag, typ, data.length / w, data, []⟩ :: p.1, p.2)
            else if data.length < 4 then
              (spec_pass1 e td tt rest offset).map fun p =>
                (⟨tag, typ, data.length / w,
                  data ++ List.replicate (4 - data.length) 0, []⟩ ::
                   p.1, p.2)
            else
              match o32pack e offset with
              | none => none
              | some v =>
                (spec_pass1 e td tt rest
                    (offset + (data.length + data.length % 2))).map fun p =>
                  (⟨tag, typ, data.length / w, v, data⟩ :: p.1, p.2)

/-- Directory save as the specification describes it: tags sorted
ascending; a 4-byte payload inline, a shorter one zero-padded to 4 bytes
inline, a longer one external at a running cursor that starts
`2 + 12 n + 4` bytes after the directory's start and advances by each
payload's length rounded up to even; the entry records, a zero terminator,
then the external payloads each followed by one pad byte when odd. -/
def specSave (d : IFD) (start : Nat) : Option (List Nat × Nat) :=
  match o16pack d.endian
      (List.insertionSort (· ≤ ·) (d.tagdata.map Prod.fst)).length with
  | none => none
  | some cb =>
    match spec_pass1 d.endian d.tagdata d.tagtype
        (List.insertionSort (· ≤ ·) (d.tagdata.map Prod.fst))
        (start + 2 +
          (List.insertionSort (· ≤ ·) (d.tagdata.map Prod.fst)).length * 12
          + 4) with
    | none => none
    | some (entries, endOff) =>
      match seqMap (entryBytes d.endian) entries with
      | none => none
      | some dirBs =>
          some (cb ++ dirBs.flatten ++ [0, 0, 0, 0] ++ auxBytes entries,
                endOff)

/-! ### Helper lemmas -/

/-- Looking up a key just stored finds the stored value. -/
theorem dget_dput_self {α : Type} (m : List (Nat × α)) (k : Nat) (v : α) :
    dget (dput m k v) k = some v := by
  induction m with
  | nil => simp [dput, dget]
  | cons kv rest ih =>
    obtain ⟨k0, v0⟩ := kv
    by_cases h : k0 = k
    · subst h
      simp [dput, dget]
    · simp [dput, dget, h, ih]

/-! ### Claims -/

/-- Claim C5 (code bug): for a rational payload of element count `k ≥ 2`
the decoders do NOT return the `k` disjoint (numerator, denominator)
pairs; `zip(l[:-1], l[1:])` yields the `2k - 1` overlapping adjacent
pairs.  At the 16-byte payload holding the 32-bit words 1,2,3,4
(element count 2) both rational decoders return the three pairs
(1,2),(2,3),(3,4) instead of (1,2),(3,4). -/
theorem c5_rational_pairing_bug :
    load_unsigned_rational .little
        [1,0,0,0, 2,0,0,0, 3,0,0,0, 4,0,0,0] =
      some (.pairs [(1, 2), (2, 3), (3, 4)]) ∧
    load_signed_rational .little
        [1,0,0,0, 2,0,0,0, 3,0,0,0, 4,0,0,0] =
      some (.pairs [(1, 2), (2, 3), (3, 4)]) := by
  constructor <;> decide

/-- Claim C6: assigning a value to a tag whose stored type is a rational
type (5 or 10) hits the `unknown` encoder, which raises; the assignment is
never a silent no-op, and since `self.tagdata[tag] = ...` only executes
after the encoder returns, the directory's tag data is unchanged. -/
theorem c6_rational_setitem_raises (d : IFD) (tag : Nat) (typ : Nat)
    (v : PyVal) (ht : dget d.tagtype tag = some typ)
    (h5 : typ = 5 ∨ typ = 10) :
    ∃ msg, setitem d tag v = Except.error msg := by
  unfold setitem
  rw [ht]
  rcases h5 with h | h <;> subst h <;>
    exact ⟨"store dispatch raised", rfl⟩

/-- Witness for C6 at a concrete directory holding a rational tag. -/
theorem c6_witness :
    ∃ msg, setitem ⟨.little, [(282, [1,0,0,0, 1,0,0,0])], [(282, 5)], none⟩
      282 (.pairs [(1, 2)]) = Except.error msg :=
  c6_rational_setitem_raises _ 282 5 _ (by decide) (Or.inl rfl)

/-- Claim C9: `M9DNG.save` computes its destination offsets as: preview
strip at 8 (right after the header), main strip at `8 + preview_length`,
EXIF directory at `main + main_length` rounded up to even — and at
preview length 101, main length 50 the EXIF offset is 160, not 159. -/
theorem c9_dest_offsets :
    (∀ pl ml, m9DestOffsets pl ml =
        (8, 8 + pl, 2 * ((8 + pl + ml + 1) / 2))) ∧
    m9DestOffsets 101 50 = (8, 109, 160) := by
  refine ⟨fun pl ml => ?_, by decide⟩
  simp only [m9DestOffsets, Prod.mk.injEq, true_and]
  split <;> omega

/-- Claim C10: the big-endian 32-bit reader `ib32` slices only two bytes
but unpacks the 4-byte format `">L"`, so it fails on every input; hence a
big-endian directory load (which reads its 4-byte next pointer through
`self.i32`) always raises, and `M9DNG` construction from a stream with the
big-endian signature (which reads the IFD0 offset from header bytes 4-8)
always raises. -/
theorem c10_ib32_always_fails :
    (∀ c o, ib32 c o = none) ∧
    (∀ fp, ifdLoad .big fp = none) ∧
    (∀ file, slice file 0 4 = [77, 77, 0, 42] → m9Init file = none) := by
  have hib : ∀ c o, ib32 c o = none := by
    intro c o
    have h2 : (slice c o 2).length ≤ 2 := by
      simp only [slice, List.length_take]
      omega
    unfold ib32
    rcases hs : slice c o 2 with _ | ⟨a, _ | ⟨b, _ | ⟨x, t⟩⟩⟩
    · rfl
    · rfl
    · rfl
    · rw [hs] at h2
      simp at h2
  refine ⟨hib, ?_, ?_⟩
  · intro fp
    unfold ifdLoad
    cases h1 : i16un Endian.big (fsRead fp 2).1 0 with
    | none => simp [h1]
    | some n =>
      cases h2 : ifdLoadLoop Endian.big n [] [] (fsRead fp 2).2 with
      | none => simp [h1, h2]
      | some stfp =>
        obtain ⟨st, fp2⟩ := stfp
        simp [h1, h2, i32un, hib]
  · intro file hsig
    have ht4 : List.take 4 file = [77, 77, 0, 42] := by
      simpa [slice] using hsig
    have ht2 : List.take 2 file = [77, 77] := by
      have h := congrArg (List.take 2) ht4
      rw [List.take_take] at h
      norm_num at h
      exact h
    have h4 : slice (slice file 0 8) 0 4 = [77, 77, 0, 42] := by
      simp only [slice, List.drop_zero, List.take_take]
      norm_num
      exact ht4
    have h2 : slice (slice file 0 8) 0 2 = [77, 77] := by
      simp only [slice, List.drop_zero, List.take_take]
      norm_num
      exact ht2
    unfold m9Init
    have hok : headerOk (fsRead ⟨file, 0⟩ 8).1 = true := by
      simp only [headerOk, fsRead]
      have : slice (slice file 0 8) 0 4 ∈ TIFF_SIGS := by
        rw [h4]; simp [TIFF_SIGS]
      simpa [slice] using this
    simp only [fsRead] at hok h2 ⊢
    rw [if_pos hok]
    rw [h2]
    simp only [pickEndian]
    rw [show i32un Endian.big (slice file 0 8) 4 = none from hib _ _]

/-- Witness for C10 at a concrete big-endian header. -/
theorem c10_witness :
    ib32 [1, 2, 3, 4] 0 = none ∧
    m9Init [77, 77, 0, 42, 0, 0, 0, 8] = none :=
  ⟨c10_ib32_always_fails.1 [1, 2, 3, 4] 0,
   c10_ib32_always_fails.2.2 [77, 77, 0, 42, 0, 0, 0, 8] (by decide)⟩

/-- A one-entry little-endian directory stream: tag 700 (XMP) read with
field type 2 (ASCII), count 4, inline payload `"abcd"`, next pointer 0. -/
def c3bytes : List Nat :=
  [1, 0, 188, 2, 2, 0, 4, 0, 0, 0, 97, 98, 99, 100, 0, 0, 0, 0]

/-- The directory `ifdLoad` produces from `c3bytes`. -/
def c3ifd : IFD :=
  ⟨.little, [(700, [97, 98, 99, 100])], [(700, 1)], some 0⟩

/-- Counterexample to claim C3: a tag 700 loaded with field type 2 (the
bytes `[2, 0]` at positions 4-5 of the stream) does NOT keep its stored
type; after the load its stored type is 1. -/
theorem c3_counterexample :
    (ifdLoad .little ⟨c3bytes, 0⟩).map (fun r => dget r.1.tagtype 700) =
      some (some 1) ∧
    slice c3bytes 4 2 = [2, 0] := by
  constructor <;> decide

/-- Claim C3, amended: after a successful directory load, the stored type
of tag 700 (XMP) is 1 whenever the tag is present at all — the rewrite is
unconditional, not restricted to tags read with field type 7. -/
theorem c3_xmp_always_rewritten (e : Endian) (fp : FileStream) (d : IFD)
    (fp2 : FileStream) (h : ifdLoad e fp = some (d, fp2))
    (hx : (dget d.tagtype 700).isSome = true) :
    dget d.tagtype 700 = some 1 := by
  unfold ifdLoad at h
  cases h1 : i16un e (fsRead fp 2).1 0 with
  | none => simp [h1] at h
  | some n =>
    cases h2 : ifdLoadLoop e n [] [] (fsRead fp 2).2 with
    | none => simp [h1, h2] at h
    | some stfp =>
      obtain ⟨st, fp3⟩ := stfp
      simp only [h1, h2] at h
      by_cases hp : (dget st.2 700).isSome = true
      · rw [if_pos hp] at h
        cases h3 : i32un e (fsRead fp3 4).1 0 with
        | none => rw [h3] at h; exact absurd h (by simp)
        | some nxt =>
          rw [h3] at h
          simp only [Option.some.injEq, Prod.mk.injEq] at h
          obtain ⟨hd, _⟩ := h
          rw [← hd]
          exact dget_dput_self st.2 700 1
      · rw [if_neg hp] at h
        cases h3 : i32un e (fsRead fp3 4).1 0 with
        | none => rw [h3] at h; exact absurd h (by simp)
        | some nxt =>
          rw [h3] at h
          simp only [Option.some.injEq, Prod.mk.injEq] at h
          obtain ⟨hd, _⟩ := h
          rw [← hd] at hx
          exact absurd hx hp

/-- Witness for the amended C3 at the concrete stream `c3bytes`. -/
theorem c3_witness : dget c3ifd.tagtype 700 = some 1 :=
  c3_xmp_always_rewritten .little ⟨c3bytes, 0⟩ c3ifd ⟨c3bytes, 18⟩
    (by decide) (by decide)

/-- A successful 16-bit pack yields two bytes. -/
theorem o16pack_length (e : Endian) (i : Nat) (l : List Nat)
    (h : o16pack e i = some l) : l.length = 2 := by
  cases e
  all_goals
    simp only [o16pack, ol16, ob16, b16] at h
    split at h
    · obtain rfl := Option.some.inj h
      rfl
    · exact absurd h (by simp)

/-- A successful 32-bit pack yields four bytes. -/
theorem o32pack_length (e : Endian) (i : Nat) (l : List Nat)
    (h : o32pack e i = some l) : l.length = 4 := by
  cases e
  all_goals
    simp only [o32pack, ol32, ob32, b32] at h
    split at h
    · obtain rfl := Option.some.inj h
      rfl
    · exact absurd h (by simp)

/-- A successful pass-2 record of an entry with a 4-byte value field is 12
bytes long. -/
theorem entryBytes_length (e : Endian) (en : DirEntry) (bs : List Nat)
    (h : entryBytes e en = some bs) (hv : en.value.length = 4) :
    bs.length = 12 := by
  unfold entryBytes at h
  cases h1 : o16pack e en.tag with
  | none => rw [h1] at h; exact absurd h (by simp)
  | some t =>
    rw [h1] at h
    cases h2 : o16pack e en.typ with
    | none => rw [h2] at h; exact absurd h (by simp)
    | some ty =>
      rw [h2] at h
      cases h3 : o32pack e en.count with
      | none => rw [h3] at h; exact absurd h (by simp)
      | some c =>
        rw [h3] at h
        obtain rfl := Option.some.inj h
        simp [o16pack_length e _ _ h1, o16pack_length e _ _ h2,
          o32pack_length e _ _ h3, hv]

/-- Pass 1 produces one entry per tag, and every entry's inline value field
is exactly four bytes. -/
theorem save_pass1_shape (e : Endian) (td : List (Nat × List Nat))
    (tt : List (Nat × Nat)) :
    ∀ (tags : List Nat) (off : Nat) (entries : List DirEntry) (endOff : Nat),
      save_pass1 e td tt tags off = some (entries, endOff) →
      entries.length = tags.length ∧ ∀ en ∈ entries, en.value.length = 4 := by
  intro tags
  induction tags with
  | nil =>
    intro off entries endOff h
    unfold save_pass1 at h
    simp only [Option.some.injEq, Prod.mk.injEq] at h
    obtain ⟨h1, _⟩ := h
    subst h1
    simp
  | cons tag rest ih =>
    intro off entries endOff h
    unfold save_pass1 at h
    cases h1 : dget tt tag with
    | none => simp only [h1] at h; exact absurd h (by simp)
    | some typ =>
      simp only [h1] at h
      cases h2 : dget td tag with
      | none => simp only [h2] at h; exact absurd h (by simp)
      | some data =>
        simp only [h2] at h
        cases h3 : typeWidth typ with
        | none => simp only [h3] at h; exact absurd h (by simp)
        | some w =>
          simp only [h3] at h
          cases h4 : (if 64 < data.length ∧ (typ = 1 ∨ typ = 2 ∨ typ = 7)
                      then some ()
                      else (loadType e typ data).map fun _ => ()) with
          | none => rw [h4] at h; exact absurd h (by simp)
          | some u =>
            rw [h4] at h
            by_cases hs4 : data.length = 4
            · rw [if_pos hs4] at h
              rw [Option.map_eq_some'] at h
              obtain ⟨p, hp, hcons⟩ := h
              obtain ⟨hent, _⟩ := Prod.mk.injEq .. ▸ hcons
              obtain ⟨hlen, hall⟩ := ih off p.1 p.2 (by rw [hp])
              subst hent
              refine ⟨by simp [hlen], ?_⟩
              intro en hen
              rcases List.mem_cons.1 hen with hh | hh
              · subst hh; exact hs4
              · exact hall en hh
            · rw [if_neg hs4] at h
              by_cases hs5 : data.length < 4
              · rw [if_pos hs5] at h
                rw [Option.map_eq_some'] at h
                obtain ⟨p, hp, hcons⟩ := h
                obtain ⟨hent, _⟩ := Prod.mk.injEq .. ▸ hcons
                obtain ⟨hlen, hall⟩ := ih off p.1 p.2 (by rw [hp])
                subst hent
                refine ⟨by simp [hlen], ?_⟩
                intro en hen
                rcases List.mem_cons.1 hen with hh | hh
                · subst hh
                  simp only [List.length_append, List.length_replicate]
                  omega
                · exact hall en hh
              · rw [if_neg hs5] at h
                cases h6 : o32pack e off with
                | none => rw [h6] at h; exact absurd h (by simp)
                | some v =>
                  rw [h6] at h
                  rw [Option.map_eq_some'] at h
                  obtain ⟨p, hp, hcons⟩ := h
                  obtain ⟨hent, _⟩ := Prod.mk.injEq .. ▸ hcons
                  obtain ⟨hlen, hall⟩ := ih _ p.1 p.2 (by rw [hp])
                  subst hent
                  refine ⟨by simp [hlen], ?_⟩
                  intro en hen
                  rcases List.mem_cons.1 hen with hh | hh
                  · subst hh; exact o32pack_length e off v h6
                  · exact hall en hh

/-- A successful pass 2 over entries with 4-byte value fields emits
`12 * entries.length` bytes in total. -/
theorem seqMap_entryBytes_length (e : Endian) :
    ∀ (entries : List DirEntry) (dirBs : List (List Nat)),
      seqMap (entryBytes e) entries = some dirBs →
      (∀ en ∈ entries, en.value.length = 4) →
      dirBs.flatten.length = 12 * entries.length := by
  intro entries
  induction entries with
  | nil =>
    intro dirBs h _
    unfold seqMap at h
    simp only [Option.some.injEq] at h
    subst h
    simp
  | cons en rest ih =>
    intro dirBs h hall
    unfold seqMap at h
    cases h1 : entryBytes e en with
    | none => rw [h1] at h; exact absurd h (by simp)
    | some b =>
      rw [h1] at h
      cases h2 : seqMap (entryBytes e) rest with
      | none => rw [h2] at h; exact absurd h (by simp)
      | some l =>
        rw [h2] at h
        simp only [Option.some.injEq] at h
        subst h
        have hb : b.length = 12 :=
          entryBytes_length e en b h1 (hall en (by simp))
        have hr : l.flatten.length = 12 * rest.length :=
          ih l h2 fun x hx => hall x (by simp [hx])
        simp [hb, hr]
        ring

/-- A little-endian directory stream whose next-directory pointer is 5:
one entry, tag 273 of type 3 (u16), count 1, inline payload. -/
def c4bytes : List Nat := [1, 0, 17, 1, 3, 0, 1, 0, 0, 0, 7, 0, 0, 0, 5, 0, 0, 0]

/-- Counterexample to claim C4: loading `c4bytes` records next pointer 5,
but saving that directory and re-loading the saved bytes yields next
pointer 0 — the chain pointer does not round-trip for `p = 5`. -/
theorem c4_counterexample :
    (ifdLoad .little ⟨c4bytes, 0⟩).map (fun r => r.1.next) = some (some 5) ∧
    ((ifdLoad .little ⟨c4bytes, 0⟩).bind fun r => ifdSave r.1 0).bind
        (fun r => (ifdLoad .little ⟨r.1, 0⟩).map fun r2 => r2.1.next) =
      some (some 0) := by
  constructor <;> decide

/-- Claim C4, amended: the saved stream always carries a zero
next-directory pointer (`save` writes the constant terminator
`"\x00\x00\x00\x00"` after the `12 n` entry bytes), so the loaded pointer
`p` survives a save/re-load only when `p = 0`. -/
theorem c4_next_zeroed_on_save (d : IFD) (start : Nat) (out : List Nat)
    (endOff : Nat) (h : ifdSave d start = some (out, endOff)) :
    slice out (2 + 12 * d.tagdata.length) 4 = [0, 0, 0, 0] := by
  unfold ifdSave at h
  cases h1 : o16pack d.endian
      (List.insertionSort (· ≤ ·) (d.tagdata.map Prod.fst)).length with
  | none => simp only [h1] at h; exact absurd h (by simp)
  | some cb =>
    simp only [h1] at h
    cases h2 : save_pass1 d.endian d.tagdata d.tagtype
        (List.insertionSort (· ≤ ·) (d.tagdata.map Prod.fst))
        (start + 2 +
          (List.insertionSort (· ≤ ·) (d.tagdata.map Prod.fst)).length * 12
          + 4) with
    | none => simp only [h2] at h; exact absurd h (by simp)
    | some p =>
      simp only [h2] at h
      obtain ⟨entries, endOff2⟩ := p
      cases h3 : seqMap (entryBytes d.endian) entries with
      | none => simp only [h3] at h; exact absurd h (by simp)
      | some dirBs =>
        simp only [h3, Option.some.injEq, Prod.mk.injEq] at h
        obtain ⟨hout, _⟩ := h
        obtain ⟨hlen, hall⟩ := save_pass1_shape d.endian d.tagdata d.tagtype
          _ _ entries endOff2 h2
        have hsortlen :
            (List.insertionSort (· ≤ ·) (d.tagdata.map Prod.fst)).length =
              d.tagdata.length := by
          rw [(List.perm_insertionSort (· ≤ ·) (d.tagdata.map Prod.fst)).length_eq]
          simp
        have hcb : cb.length = 2 := o16pack_length _ _ _ h1
        have hdb : dirBs.flatten.length = 12 * entries.length :=
          seqMap_entryBytes_length d.endian entries dirBs h3 hall
        have hpre : (cb ++ dirBs.flatten).length = 2 + 12 * d.tagdata.length := by
          simp [hcb, hdb, hlen, hsortlen]
        subst hout
        rw [slice, List.append_assoc (cb ++ dirBs.flatten),
          List.drop_left' hpre]
        rfl

/-- Witness for the amended C4 at the concrete directory loaded from
`c4bytes` and saved at offset 0. -/
theorem c4_witness :
    slice [1, 0, 17, 1, 3, 0, 1, 0, 0, 0, 7, 0, 0, 0, 0, 0, 0, 0]
        (2 + 12 * 1) 4 = [0, 0, 0, 0] :=
  c4_next_zeroed_on_save ⟨.little, [(273, [7, 0])], [(273, 3)], some 5⟩ 0
    [1, 0, 17, 1, 3, 0, 1, 0, 0, 0, 7, 0, 0, 0, 0, 0, 0, 0] 18 (by decide)

/-- A complete little-endian M9 DNG stream: IFD0 (preview) at 8 with tags
273 (type 4, TWO elements, external at 62), 279 (type 3, one element, 5),
330 (pointer 70) and 34665 (pointer 100); the main directory at 70 with
273 = (20,) and 279 = (6,); an empty EXIF directory at 100. -/
def dngFile : List Nat :=
  [73, 73, 42, 0, 8, 0, 0, 0,
   4, 0,
   17, 1, 4, 0, 2, 0, 0, 0, 62, 0, 0, 0,
   23, 1, 3, 0, 1, 0, 0, 0, 5, 0, 0, 0,
   74, 1, 4, 0, 1, 0, 0, 0, 70, 0, 0, 0,
   105, 135, 4, 0, 1, 0, 0, 0, 100, 0, 0, 0,
   0, 0, 0, 0,
   10, 0, 0, 0, 20, 0, 0, 0,
   2, 0,
   17, 1, 4, 0, 1, 0, 0, 0, 20, 0, 0, 0,
   23, 1, 3, 0, 1, 0, 0, 0, 6, 0, 0, 0,
   0, 0, 0, 0,
   0, 0, 0, 0, 0, 0]

/-- `dngFile` with header bytes 2-3 replaced by `0xBC 0x00` — the third
signature of the source's `PREFIXES` list, which is neither classic
signature. -/
def dngFileBC : List Nat :=
  [73, 73, 188, 0, 8, 0, 0, 0,
   4, 0,
   17, 1, 4, 0, 2, 0, 0, 0, 62, 0, 0, 0,
   23, 1, 3, 0, 1, 0, 0, 0, 5, 0, 0, 0,
   74, 1, 4, 0, 1, 0, 0, 0, 70, 0, 0, 0,
   105, 135, 4, 0, 1, 0, 0, 0, 100, 0, 0, 0,
   0, 0, 0, 0,
   10, 0, 0, 0, 20, 0, 0, 0,
   2, 0,
   17, 1, 4, 0, 1, 0, 0, 0, 20, 0, 0, 0,
   23, 1, 3, 0, 1, 0, 0, 0, 6, 0, 0, 0,
   0, 0, 0, 0,
   0, 0, 0, 0, 0, 0]

/-- The image `m9Init` constructs from `dngFile`. -/
def c2img : M9DNG :=
  ⟨.little,
   ⟨.little,
    [(273, [10, 0, 0, 0, 20, 0, 0, 0]), (279, [5, 0]),
     (330, [70, 0, 0, 0]), (34665, [100, 0, 0, 0])],
    [(273, 4), (279, 3), (330, 4), (34665, 4)], some 0⟩,
   ⟨.little, [(273, [20, 0, 0, 0]), (279, [6, 0])],
    [(273, 4), (279, 3)], some 0⟩,
   ⟨.little, [], [], some 0⟩,
   (10, 5), (20, 6)⟩

/-- Counterexample to claim C2: `dngFile`'s preview StripOffsets tag
decodes to the TWO elements (10, 20), yet construction succeeds — with the
strip descriptor silently built from the first element — instead of
failing. -/
theorem c2_counterexample :
    (m9Init dngFile).map (fun i => getitem i.preview_ifd 273) =
      some (some (PyVal.ints [10, 20])) ∧
    (m9Init dngFile).map (fun i => i.preview_strip) = some (10, 5) := by
  constructor <;> decide

/-- Claim C2, amended: a multi-element StripOffsets tag does NOT make
construction fail; whenever construction succeeds the preview strip offset
is simply the first element of the (possibly longer) decoded tuple. -/
theorem c2_first_strip_used (file : List Nat) (img : M9DNG) (vs : List Int)
    (h : m9Init file = some img)
    (hv : getitem img.preview_ifd 273 = some (PyVal.ints vs))
    (hlen : 2 ≤ vs.length) :
    vs.head? = some img.preview_strip.1 := by
  simp only [m9Init] at h
  by_cases hok : headerOk (fsRead ⟨file, 0⟩ 8).1 = true
  case neg => rw [if_neg hok] at h; exact absurd h (by simp)
  case pos =>
  rw [if_pos hok] at h
  cases h1 : pickEndian (slice (fsRead ⟨file, 0⟩ 8).1 0 2) with
  | none => simp only [h1] at h; exact absurd h (by simp)
  | some e =>
    simp only [h1] at h
    cases h2 : i32un e (fsRead ⟨file, 0⟩ 8).1 4 with
    | none => simp only [h2] at h; exact absurd h (by simp)
    | some ifd0off =>
      simp only [h2] at h
      cases h3 : ifdLoad e (fsSeek (fsRead ⟨file, 0⟩ 8).2 ifd0off) with
      | none => simp only [h3] at h; exact absurd h (by simp)
      | some pr =>
        simp only [h3] at h
        obtain ⟨pifd, fp1⟩ := pr
        cases h4 : getSeek pifd 330 with
        | none => simp only [h4] at h; exact absurd h (by simp)
        | some mainOff =>
          simp only [h4] at h
          cases h5 : ifdLoad e (fsSeek fp1 mainOff) with
          | none => simp only [h5] at h; exact absurd h (by simp)
          | some mr =>
            simp only [h5] at h
            obtain ⟨mifd, fp2⟩ := mr
            cases h6 : getSeek pifd 34665 with
            | none => simp only [h6] at h; exact absurd h (by simp)
            | some exifOff =>
              simp only [h6] at h
              cases h7 : ifdLoad e (fsSeek fp2 exifOff) with
              | none => simp only [h7] at h; exact absurd h (by simp)
              | some xr =>
                simp only [h7] at h
                obtain ⟨xifd, fp3⟩ := xr
                cases h8 : getFirst pifd 273 with
                | none => simp only [h8] at h; exact absurd h (by simp)
                | some po =>
                  simp only [h8] at h
                  cases h9 : getFirst pifd 279 with
                  | none => simp only [h9] at h; exact absurd h (by simp)
                  | some pc =>
                    simp only [h9] at h
                    cases h10 : getFirst mifd 273 with
                    | none => simp only [h10] at h; exact absurd h (by simp)
                    | some mo =>
                      simp only [h10] at h
                      cases h11 : getFirst mifd 279 with
                      | none => simp only [h11] at h; exact absurd h (by simp)
                      | some mc =>
                        simp only [h11, Option.some.injEq] at h
                        subst h
                        simp only [] at hv ⊢
                        rw [getFirst, hv] at h8
                        simp only [Option.some_bind, firstInt] at h8
                        cases vs with
                        | nil => exact absurd h8 (by simp)
                        | cons x rest =>
                          simp only [Option.some.injEq] at h8
                          subst h8
                          rfl

/-- Witness for the amended C2 at the concrete stream `dngFile`. -/
theorem c2_witness : ([10, 20] : List Int).head? = some c2img.preview_strip.1 :=
  c2_first_strip_used dngFile c2img [10, 20] (by decide) (by decide)
    (by decide)

/-- Counterexample to claim C8: the stream `dngFileBC`, whose first four
bytes are `II 0xBC 0x00` — neither classic TIFF signature — is accepted
and fully constructed rather than rejected with a format error. -/
theorem c8_counterexample :
    (m9Init dngFileBC).isSome = true ∧
    slice dngFileBC 0 4 ≠ [77, 77, 0, 42] ∧
    slice dngFileBC 0 4 ≠ [73, 73, 42, 0] := by
  refine ⟨by decide, by decide, by decide⟩

/-- Claim C8, amended: construction passes the header gate exactly for the
THREE signatures of the source's `PREFIXES` list — the two classic TIFF
signatures plus `II 0xBC 0x00`; a successful construction implies the
stream began with one of the three. -/
theorem c8_three_sigs_accepted (ifh file : List Nat) (img : M9DNG) :
    (headerOk ifh = true ↔
      slice ifh 0 4 = [77, 77, 0, 42] ∨ slice ifh 0 4 = [73, 73, 42, 0] ∨
        slice ifh 0 4 = [73, 73, 188, 0]) ∧
    (m9Init file = some img → slice file 0 4 ∈ TIFF_SIGS) := by
  constructor
  · simp [headerOk, TIFF_SIGS]
  · intro h
    simp only [m9Init] at h
    by_cases hok : headerOk (fsRead ⟨file, 0⟩ 8).1 = true
    · have : slice (fsRead ⟨file, 0⟩ 8).1 0 4 ∈ TIFF_SIGS := by
        simpa [headerOk] using hok
      have heq : slice (fsRead ⟨file, 0⟩ 8).1 0 4 = slice file 0 4 := by
        simp [fsRead, slice, List.take_take]
      rwa [heq] at this
    · rw [if_neg hok] at h
      exact absurd h (by simp)

/-- Witness for the amended C8 at the concrete stream `dngFile`. -/
theorem c8_witness : slice dngFile 0 4 ∈ TIFF_SIGS :=
  (c8_three_sigs_accepted dngFile dngFile c2img).2 (by decide)

/-- Grouping the concatenated two-byte encodings recovers the values. -/
theorem words2_concat (e : Endian) (vs : List Nat) :
    words2 (w16 e) (vs.flatMap (b16 e)) = some vs := by
  induction vs with
  | nil => rfl
  | cons x rest ih =>
    cases e
    case little =>
      have h1 : (x :: rest).flatMap (b16 Endian.little) =
          x % 256 :: x / 256 :: rest.flatMap (b16 Endian.little) := rfl
      have h2 : words2 (w16 Endian.little)
          (x % 256 :: x / 256 :: rest.flatMap (b16 Endian.little)) =
            (words2 (w16 Endian.little)
              (rest.flatMap (b16 Endian.little))).map
              (fun l => w16 Endian.little (x % 256) (x / 256) :: l) := rfl
      have hx : w16 Endian.little (x % 256) (x / 256) = x := by
        show le16 (x % 256) (x / 256) = x
        unfold le16
        omega
      rw [h1, h2, ih, hx]
      rfl
    case big =>
      have h1 : (x :: rest).flatMap (b16 Endian.big) =
          x / 256 :: x % 256 :: rest.flatMap (b16 Endian.big) := rfl
      have h2 : words2 (w16 Endian.big)
          (x / 256 :: x % 256 :: rest.flatMap (b16 Endian.big)) =
            (words2 (w16 Endian.big) (rest.flatMap (b16 Endian.big))).map
              (fun l => w16 Endian.big (x / 256) (x % 256) :: l) := rfl
      have hx : w16 Endian.big (x / 256) (x % 256) = x := by
        show be16 (x / 256) (x % 256) = x
        unfold be16
        omega
      rw [h1, h2, ih, hx]
      rfl

/-- Grouping the concatenated four-byte encodings recovers the values. -/
theorem words4_concat (e : Endian) (vs : List Nat) :
    words4 (w32 e) (vs.flatMap (b32 e)) = some vs := by
  induction vs with
  | nil => rfl
  | cons x rest ih =>
    cases e
    case little =>
      have h1 : (x :: rest).flatMap (b32 Endian.little) =
          x % 256 :: x / 256 % 256 :: x / 65536 % 256 :: x / 16777216 ::
            rest.flatMap (b32 Endian.little) := rfl
      have h2 : words4 (w32 Endian.little)
          (x % 256 :: x / 256 % 256 :: x / 65536 % 256 :: x / 16777216 ::
            rest.flatMap (b32 Endian.little)) =
            (words4 (w32 Endian.little)
              (rest.flatMap (b32 Endian.little))).map
              (fun l => w32 Endian.little (x % 256) (x / 256 % 256)
                (x / 65536 % 256) (x / 16777216) :: l) := rfl
      have hx : w32 Endian.little (x % 256) (x / 256 % 256) (x / 65536 % 256)
          (x / 16777216) = x := by
        show le32 (x % 256) (x / 256 % 256) (x / 65536 % 256)
          (x / 16777216) = x
        unfold le32
        omega
      rw [h1, h2, ih, hx]
      rfl
    case big =>
      have h1 : (x :: rest).flatMap (b32 Endian.big) =
          x / 16777216 :: x / 65536 % 256 :: x / 256 % 256 :: x % 256 ::
            rest.flatMap (b32 Endian.big) := rfl
      have h2 : words4 (w32 Endian.big)
          (x / 16777216 :: x / 65536 % 256 :: x / 256 % 256 :: x % 256 ::
            rest.flatMap (b32 Endian.big)) =
            (words4 (w32 Endian.big) (rest.flatMap (b32 Endian.big))).map
              (fun l => w32 Endian.big (x / 16777216) (x / 65536 % 256)
                (x / 256 % 256) (x % 256) :: l) := rfl
      have hx : w32 Endian.big (x / 16777216) (x / 65536 % 256)
          (x / 256 % 256) (x % 256) = x := by
        show be32 (x / 16777216) (x / 65536 % 256) (x / 256 % 256)
          (x % 256) = x
        unfold be32
        omega
      rw [h1, h2, ih, hx]
      rfl

/-- Grouping the concatenated eight-byte encodings recovers the values. -/
theorem words8_concat (e : Endian) (vs : List Nat) :
    words8 (w64 e) (vs.flatMap (b64 e)) = some vs := by
  induction vs with
  | nil => rfl
  | cons x rest ih =>
    cases e
    case little =>
      have h1 : (x :: rest).flatMap (b64 Endian.little) =
          x % 256 :: x / 256 % 256 :: x / 65536 % 256 ::
            x / 16777216 % 256 :: x / 4294967296 % 256 ::
            x / 1099511627776 % 256 :: x / 281474976710656 % 256 ::
            x / 72057594037927936 ::
            rest.flatMap (b64 Endian.little) := rfl
      have h2 : words8 (w64 Endian.little)
          (x % 256 :: x / 256 % 256 :: x / 65536 % 256 ::
            x / 16777216 % 256 :: x / 4294967296 % 256 ::
            x / 1099511627776 % 256 :: x / 281474976710656 % 256 ::
            x / 72057594037927936 ::
            rest.flatMap (b64 Endian.little)) =
            (words8 (w64 Endian.little)
              (rest.flatMap (b64 Endian.little))).map
              (fun l => w64 Endian.little (x % 256) (x / 256 % 256)
                (x / 65536 % 256) (x / 16777216 % 256)
                (x / 4294967296 % 256) (x / 1099511627776 % 256)
                (x / 281474976710656 % 256)
                (x / 72057594037927936) :: l) := rfl
      have hx : w64 Endian.little (x % 256) (x / 256 % 256)
          (x / 65536 % 256) (x / 16777216 % 256) (x / 4294967296 % 256)
          (x / 1099511627776 % 256) (x / 281474976710656 % 256)
          (x / 72057594037927936) = x := by
        show le64 (x % 256) (x / 256 % 256) (x / 65536 % 256)
          (x / 16777216 % 256) (x / 4294967296 % 256)
          (x / 1099511627776 % 256) (x / 281474976710656 % 256)
          (x / 72057594037927936) = x
        unfold le64
        omega
      rw [h1, h2, ih, hx]
      rfl
    case big =>
      have h1 : (x :: rest).flatMap (b64 Endian.big) =
          x / 72057594037927936 :: x / 281474976710656 % 256 ::
            x / 1099511627776 % 256 :: x / 4294967296 % 256 ::
            x / 16777216 % 256 :: x / 65536 % 256 :: x / 256 % 256 ::
            x % 256 :: rest.flatMap (b64 Endian.big) := rfl
      have h2 : words8 (w64 Endian.big)
          (x / 72057594037927936 :: x / 281474976710656 % 256 ::
            x / 1099511627776 % 256 :: x / 4294967296 % 256 ::
            x / 16777216 % 256 :: x / 65536 % 256 :: x / 256 % 256 ::
            x % 256 :: rest.flatMap (b64 Endian.big)) =
            (words8 (w64 Endian.big) (rest.flatMap (b64 Endian.big))).map
              (fun l => w64 Endian.big (x / 72057594037927936)
                (x / 281474976710656 % 256) (x / 1099511627776 % 256)
                (x / 4294967296 % 256) (x / 16777216 % 256)
                (x / 65536 % 256) (x / 256 % 256) (x % 256) :: l) := rfl
      have hx : w64 Endian.big (x / 72057594037927936)
          (x / 281474976710656 % 256) (x / 1099511627776 % 256)
          (x / 4294967296 % 256) (x / 16777216 % 256) (x / 65536 % 256)
          (x / 256 % 256) (x % 256) = x := by
        show be64 (x / 72057594037927936) (x / 281474976710656 % 256)
          (x / 1099511627776 % 256) (x / 4294967296 % 256)
          (x / 16777216 % 256) (x / 65536 % 256) (x / 256 % 256)
          (x % 256) = x
        unfold be64
        omega
      rw [h1, h2, ih, hx]
      rfl

/-- Mapping an elementwise left inverse over a mapped list is the
identity. -/
theorem map_map_id {α β : Type} (f : α → β) (g : β → α) (vs : List α)
    (h : ∀ x ∈ vs, g (f x) = x) : (vs.map f).map g = vs := by
  induction vs with
  | nil => rfl
  | cons x rest ih =>
    simp only [List.map_cons, List.cons.injEq]
    exact ⟨h x (by simp), ih fun y hy => h y (by simp [hy])⟩

/-- Two's-complement round trip at 8 bits. -/
theorem toSigned_toU_8 (x : Int) (h1 : -128 ≤ x) (h2 : x < 128) :
    toSigned 128 (toU 256 x) = x := by
  unfold toSigned toU
  split <;> omega

/-- Two's-complement round trip at 16 bits. -/
theorem toSigned_toU_16 (x : Int) (h1 : -32768 ≤ x) (h2 : x < 32768) :
    toSigned 32768 (toU 65536 x) = x := by
  unfold toSigned toU
  split <;> omega

/-- Two's-complement round trip at 32 bits. -/
theorem toSigned_toU_32 (x : Int) (h1 : -2147483648 ≤ x)
    (h2 : x < 2147483648) :
    toSigned 2147483648 (toU 4294967296 x) = x := by
  unfold toSigned toU
  split <;> omega

/-- Dispatch unfolding at field type 1. -/
theorem storeType_t1 (e : Endian) (v : PyVal) :
    storeType e 1 v = store_unsigned_byte v := rfl

/-- Dispatch unfolding at field type 2. -/
theorem storeType_t2 (e : Endian) (v : PyVal) :
    storeType e 2 v = store_string v := rfl

/-- Dispatch unfolding at field type 3. -/
theorem storeType_t3 (e : Endian) (v : PyVal) :
    storeType e 3 v = store_unsigned_short e v := rfl

/-- Dispatch unfolding at field type 4. -/
theorem storeType_t4 (e : Endian) (v : PyVal) :
    storeType e 4 v = store_unsigned_long e v := rfl

/-- Dispatch unfolding at field type 6. -/
theorem storeType_t6 (e : Endian) (v : PyVal) :
    storeType e 6 v = store_signed_byte v := rfl

/-- Dispatch unfolding at field type 7. -/
theorem storeType_t7 (e : Endian) (v : PyVal) :
    storeType e 7 v = store_undefined v := rfl

/-- Dispatch unfolding at field type 8. -/
theorem storeType_t8 (e : Endian) (v : PyVal) :
    storeType e 8 v = store_signed_short e v := rfl

/-- Dispatch unfolding at field type 9. -/
theorem storeType_t9 (e : Endian) (v : PyVal) :
    storeType e 9 v = store_signed_long e v := rfl

/-- Dispatch unfolding at field type 11. -/
theorem storeType_t11 (e : Endian) (v : PyVal) :
    storeType e 11 v = store_float e v := rfl

/-- Dispatch unfolding at field type 12. -/
theorem storeType_t12 (e : Endian) (v : PyVal) :
    storeType e 12 v = store_double e v := rfl

/-- Decoder unfolding at field type 1. -/
theorem loadType_t1 (e : Endian) (data : List Nat) :
    loadType e 1 data = load_unsigned_byte data := rfl

/-- Decoder unfolding at field type 2. -/
theorem loadType_t2 (e : Endian) (data : List Nat) :
    loadType e 2 data = load_string data := rfl

/-- Decoder unfolding at field type 3. -/
theorem loadType_t3 (e : Endian) (data : List Nat) :
    loadType e 3 data = load_unsigned_short e data := rfl

/-- Decoder unfolding at field type 4. -/
theorem loadType_t4 (e : Endian) (data : List Nat) :
    loadType e 4 data = load_unsigned_long e data := rfl

/-- Decoder unfolding at field type 6. -/
theorem loadType_t6 (e : Endian) (data : List Nat) :
    loadType e 6 data = load_signed_byte data := rfl

/-- Decoder unfolding at field type 7. -/
theorem loadType_t7 (e : Endian) (data : List Nat) :
    loadType e 7 data = load_undefined data := rfl

/-- Decoder unfolding at field type 8. -/
theorem loadType_t8 (e : Endian) (data : List Nat) :
    loadType e 8 data = load_signed_short e data := rfl

/-- Decoder unfolding at field type 9. -/
theorem loadType_t9 (e : Endian) (data : List Nat) :
    loadType e 9 data = load_signed_long e data := rfl

/-- Decoder unfolding at field type 11. -/
theorem loadType_t11 (e : Endian) (data : List Nat) :
    loadType e 11 data = load_float e data := rfl

/-- Decoder unfolding at field type 12. -/
theorem loadType_t12 (e : Endian) (data : List Nat) :
    loadType e 12 data = load_double e data := rfl

/-- Counterexample to claim C1: field type 5 is listed in both dispatch
tables, and the pair (1, 2) has valid shape for it, yet
`decode(5, encode(5, v)) == v` fails — the listed encoder is the `unknown`
stub, which raises instead of producing bytes. -/
theorem c1_counterexample :
    validShape 5 (.pairs [(1, 2)]) = true ∧
    ¬ roundTrips .little 5 (.pairs [(1, 2)]) := by
  constructor
  · decide
  · rintro ⟨bs, hstore, _⟩
    simp [storeType, unknown] at hstore

/-- Claim C1, amended: for every field type whose encoder and decoder are
both genuinely implemented — types 1, 2, 3, 4, 6, 7, 8, 9, 11, 12; NOT
type 5 or 10, whose table encoder is the always-raising `unknown` stub,
and NOT type 13, whose two codecs call a free unbound name and raise
`NameError` — and for every value of valid shape for that type,
`decode(type, encode(type, v)) == v` in either byte order. -/
theorem c1_encode_decode (e : Endian) (typ : Nat) (v : PyVal)
    (hmem : typ ∈ ([1, 2, 3, 4, 6, 7, 8, 9, 11, 12] : List Nat))
    (hs : validShape typ v = true) :
    roundTrips e typ v := by
  simp only [List.mem_cons, List.not_mem_nil, or_false] at hmem
  rcases hmem with rfl | rfl | rfl | rfl | rfl | rfl | rfl | rfl | rfl | rfl
  · -- type 1: unsigned byte
    cases v <;> simp [validShape] at hs
    case ints vs =>
    have hb : (vs.all fun x => decide (0 ≤ x ∧ x < 256)) = true :=
      List.all_eq_true.2 fun x hx => decide_eq_true (hs x hx)
    have hvv : (List.map Int.toNat vs).map Int.ofNat = vs :=
      map_map_id _ _ vs fun x hx => Int.toNat_of_nonneg (hs x hx).1
    refine ⟨vs.map Int.toNat, ?_, ?_⟩
    · rw [storeType_t1]
      simp only [store_unsigned_byte]
      rw [if_pos hb]
    · rw [loadType_t1]
      show some (PyVal.ints ((vs.map Int.toNat).map Int.ofNat)) =
        some (PyVal.ints vs)
      rw [hvv]
  · -- type 2: ASCII string
    cases v <;> simp [validShape] at hs
    case str s =>
    exact ⟨s, by rw [storeType_t2]; rfl, by rw [loadType_t2]; rfl⟩
  · -- type 3: unsigned short
    cases v <;> simp [validShape] at hs
    case ints vs =>
    have hb : (vs.all fun x => decide (0 ≤ x ∧ x < 65536)) = true :=
      List.all_eq_true.2 fun x hx => decide_eq_true (hs x hx)
    have hvv : (List.map Int.toNat vs).map Int.ofNat = vs :=
      map_map_id _ _ vs fun x hx => Int.toNat_of_nonneg (hs x hx).1
    refine ⟨(vs.map Int.toNat).flatMap (b16 e), ?_, ?_⟩
    · rw [storeType_t3]
      simp only [store_unsigned_short]
      rw [if_pos hb]
    · rw [loadType_t3]
      simp only [load_unsigned_short]
      rw [words2_concat e]
      show some (PyVal.ints ((vs.map Int.toNat).map Int.ofNat)) =
        some (PyVal.ints vs)
      rw [hvv]
  · -- type 4: unsigned long
    cases v <;> simp [validShape] at hs
    case ints vs =>
    have hb : (vs.all fun x => decide (0 ≤ x ∧ x < 4294967296)) = true :=
      List.all_eq_true.2 fun x hx => decide_eq_true (hs x hx)
    have hvv : (List.map Int.toNat vs).map Int.ofNat = vs :=
      map_map_id _ _ vs fun x hx => Int.toNat_of_nonneg (hs x hx).1
    refine ⟨(vs.map Int.toNat).flatMap (b32 e), ?_, ?_⟩
    · rw [storeType_t4]
      simp only [store_unsigned_long]
      rw [if_pos hb]
    · rw [loadType_t4]
      simp only [load_unsigned_long]
      rw [words4_concat e]
      show some (PyVal.ints ((vs.map Int.toNat).map Int.ofNat)) =
        some (PyVal.ints vs)
      rw [hvv]
  · -- type 6: signed byte
    cases v <;> simp [validShape] at hs
    case ints vs =>
    have hb : (vs.all fun x => decide (-128 ≤ x ∧ x < 128)) = true :=
      List.all_eq_true.2 fun x hx => decide_eq_true (hs x hx)
    have hvv : (vs.map (toU 256)).map (toSigned 128) = vs :=
      map_map_id _ _ vs fun x hx =>
        toSigned_toU_8 x (hs x hx).1 (hs x hx).2
    refine ⟨vs.map (toU 256), ?_, ?_⟩
    · rw [storeType_t6]
      simp only [store_signed_byte]
      rw [if_pos hb]
    · rw [loadType_t6]
      show some (PyVal.ints ((vs.map (toU 256)).map (toSigned 128))) =
        some (PyVal.ints vs)
      rw [hvv]
  · -- type 7: undefined bytes
    cases v <;> simp [validShape] at hs
    case str s =>
    exact ⟨s, by rw [storeType_t7]; rfl, by rw [loadType_t7]; rfl⟩
  · -- type 8: signed short
    cases v <;> simp [validShape] at hs
    case ints vs =>
    have hb : (vs.all fun x => decide (-32768 ≤ x ∧ x < 32768)) = true :=
      List.all_eq_true.2 fun x hx => decide_eq_true (hs x hx)
    have hvv : (vs.map (toU 65536)).map (toSigned 32768) = vs :=
      map_map_id _ _ vs fun x hx =>
        toSigned_toU_16 x (hs x hx).1 (hs x hx).2
    refine ⟨(vs.map (toU 65536)).flatMap (b16 e), ?_, ?_⟩
    · rw [storeType_t8]
      simp only [store_signed_short]
      rw [if_pos hb]
    · rw [loadType_t8]
      simp only [load_signed_short]
      rw [words2_concat e]
      show some (PyVal.ints ((vs.map (toU 65536)).map (toSigned 32768))) =
        some (PyVal.ints vs)
      rw [hvv]
  · -- type 9: signed long
    cases v <;> simp [validShape] at hs
    case ints vs =>
    have hb : (vs.all fun x =>
        decide (-2147483648 ≤ x ∧ x < 2147483648)) = true :=
      List.all_eq_true.2 fun x hx => decide_eq_true (hs x hx)
    have hvv : (vs.map (toU 4294967296)).map (toSigned 2147483648) = vs :=
      map_map_id _ _ vs fun x hx =>
        toSigned_toU_32 x (hs x hx).1 (hs x hx).2
    refine ⟨(vs.map (toU 4294967296)).flatMap (b32 e), ?_, ?_⟩
    · rw [storeType_t9]
      simp only [store_signed_long]
      rw [if_pos hb]
    · rw [loadType_t9]
      simp only [load_signed_long]
      rw [words4_concat e]
      show some (PyVal.ints
          ((vs.map (toU 4294967296)).map (toSigned 2147483648))) =
        some (PyVal.ints vs)
      rw [hvv]
  · -- type 11: float (bit patterns)
    cases v <;> simp [validShape] at hs
    case flts ps =>
    have hb : (ps.all fun x => decide (x < 4294967296)) = true :=
      List.all_eq_true.2 fun x hx => decide_eq_true (hs x hx)
    refine ⟨ps.flatMap (b32 e), ?_, ?_⟩
    · rw [storeType_t11]
      simp only [store_float]
      rw [if_pos hb]
    · rw [loadType_t11]
      simp only [load_float]
      rw [words4_concat e]
      rfl
  · -- type 12: double (bit patterns)
    cases v <;> simp [validShape] at hs
    case dbls ps =>
    have hb : (ps.all fun x => decide (x < 18446744073709551616)) = true :=
      List.all_eq_true.2 fun x hx => decide_eq_true (hs x hx)
    refine ⟨ps.flatMap (b64 e), ?_, ?_⟩
    · rw [storeType_t12]
      simp only [store_double]
      rw [if_pos hb]
    · rw [loadType_t12]
      simp only [load_double]
      rw [words8_concat e]
      rfl

/-- Witness for the amended C1: type 3 at the two-element value (5, 300)
in little-endian byte order. -/
theorem c1_witness :
    (3 ∈ ([1, 2, 3, 4, 6, 7, 8, 9, 11, 12] : List Nat)) ∧
    validShape 3 (.ints [5, 300]) = true ∧
    roundTrips .little 3 (.ints [5, 300]) :=
  ⟨by decide, by decide,
   c1_encode_decode .little 3 (.ints [5, 300]) (by decide) (by decide)⟩

/-- At an even cursor, rounding the absolute cursor up to even (what the
source does) coincides with advancing by the payload length rounded up to
even (what the specification says), so the two pass-1 computations agree
from any even starting cursor. -/
theorem save_pass1_even (e : Endian) (td : List (Nat × List Nat))
    (tt : List (Nat × Nat)) :
    ∀ (tags : List Nat) (off : Nat), off % 2 = 0 →
      save_pass1 e td tt tags off = spec_pass1 e td tt tags off := by
  intro tags
  induction tags with
  | nil => intro off hoff; rfl
  | cons tag rest ih =>
    intro off hoff
    unfold save_pass1 spec_pass1
    cases h1 : dget tt tag with
    | none => rfl
    | some typ =>
      simp only [h1]
      cases h2 : dget td tag with
      | none => rfl
      | some data =>
        simp only [h2]
        cases h3 : typeWidth typ with
        | none => rfl
        | some w =>
          simp only [h3]
          cases h4 : (if 64 < data.length ∧ (typ = 1 ∨ typ = 2 ∨ typ = 7)
                      then some ()
                      else (loadType e typ data).map fun _ => ()) with
          | none => rfl
          | some u =>
            simp only [h4]
            by_cases h5 : data.length = 4
            · rw [if_pos h5, if_pos h5, ih off hoff]
            · rw [if_neg h5, if_neg h5]
              by_cases h6 : data.length < 4
              · rw [if_pos h6, if_pos h6, ih off hoff]
              · rw [if_neg h6, if_neg h6]
                cases h7 : o32pack e off with
                | none => rfl
                | some v =>
                  simp only [h7]
                  have heq : (if (off + data.length) % 2 = 1
                        then off + data.length + 1
                        else off + data.length) =
                      off + (data.length + data.length % 2) := by
                    split <;> omega
                  have hoff2 :
                      (off + (data.length + data.length % 2)) % 2 = 0 := by
                    omega
                  rw [heq, ih _ hoff2]

/-- Claim C7: started at an even position, directory save lays entries out
exactly as the specification describes — a 4-byte payload inline, a
shorter payload zero-padded to 4 bytes inline, a longer payload external
with its offset drawn from a running cursor that begins `2 + 12 n + 4`
bytes after the directory's start and advances by the payload's length
rounded up to even, and each odd-length external payload followed by one
zero pad byte (`specSave` transcribes that description; the source's save
equals it). -/
theorem c7_save_layout (d : IFD) (start : Nat) (h : start % 2 = 0) :
    ifdSave d start = specSave d start := by
  unfold ifdSave specSave
  rw [save_pass1_even d.endian d.tagdata d.tagtype _ _ (by omega)]

/-- A directory with two external payloads (lengths 5 and 6, types
undefined) for the C7 witness. -/
def c7dir : IFD :=
  ⟨.little, [(300, [1, 2, 3, 4, 5]), (301, [9, 9, 9, 9, 9, 9])],
   [(300, 7), (301, 7)], none⟩

/-- Witness for C7 at the concrete directory `c7dir` saved at offset 0:
the save succeeds and equals the specification layout. -/
theorem c7_witness :
    (0 : Nat) % 2 = 0 ∧ (ifdSave c7dir 0).isSome = true ∧
    ifdSave c7dir 0 = specSave c7dir 0 :=
  ⟨rfl, by decide, c7_save_layout c7dir 0 rfl⟩

end Mdng
